import Mathlib

/-!
Verification of the signal-detection and position-lifecycle engine of
`live_daily_bot.py` (daily prediction-market bot).

The repository ships one source file, `src/live_daily_bot.py`, which holds the
strategy layer (`DailyMarketBot.calculate_exit_target`, `should_enter`,
`place_entry_order`, `check_exits`).  The two leaf components it consumes,
`PriceTracker` and `PositionManager`, come from a `lib` package that is not in
the repository snapshot; they are modelled here from the specification
(sections 3, 4.1, 4.2 and 9), as noted on each definition.

Prices, sizes and timestamps are embedded as rationals (the Python code uses
floats; every constant involved is decimal and the claims are about exact
threshold comparisons).  Sides are strings, as in the source
(`'lower'`/`'upper'`).
-/

/-- Maximum of a list of rationals, Python-`max` style (0 on the empty list;
all call sites guard for nonemptiness). -/
def listMaxQ : List ℚ → ℚ
  | [] => 0
  | x :: xs => xs.foldl max x

/-- Minimum of a list of rationals, Python-`min` style (0 on the empty list). -/
def listMinQ : List ℚ → ℚ
  | [] => 0
  | x :: xs => xs.foldl min x

/-- Sum of a list of rationals. -/
def listSumQ (l : List ℚ) : ℚ := l.foldl (· + ·) 0

/-- A single recorded price tick.  Modelled from the spec: the `lib` package
providing `PriceTracker` is not under `src/`; this follows the spec's
`PriceObservation` `\x7bside, price, timestamp\x7d` (the side is the key under
which the observation is stored, so it is not repeated in the record). -/
structure PriceObservation where
  price : ℚ
  timestamp : ℚ
deriving DecidableEq

/-- Last element of an observation list (the most recent tick; observations
are appended in arrival order).  Dummy value on the empty list, which every
call site guards against. -/
def lastObs : List PriceObservation → PriceObservation
  | [] => ⟨0, 0⟩
  | [x] => x
  | _ :: x :: xs => lastObs (x :: xs)

/-- Flash-crash event.  Modelled from the spec:
`\x7bside, old_price, new_price, timestamp\x7d`. -/
structure FlashCrashEvent where
  side : String
  old_price : ℚ
  new_price : ℚ
  timestamp : ℚ
deriving DecidableEq

/-- Bounded per-side time series of price ticks.  Modelled from the spec:
`PriceTracker(lookback_seconds, drop_threshold)` from the missing `lib`
package, spec section 4.1. -/
structure PriceTracker where
  lookback_seconds : ℚ
  drop_threshold : ℚ
  history : String → List PriceObservation

/-- A fresh tracker with no observations, as constructed in
`DailyMarketBot.__init__` (`lookback_seconds=10, drop_threshold=0.30`). -/
def PriceTracker.init (lookback drop : ℚ) : PriceTracker :=
  ⟨lookback, drop, fun _ => []⟩

/-- Modelled from the spec: `record(side, price, timestamp)` appends an
observation, then prunes all observations for that side older than
`lookback_seconds` relative to the newest timestamp for that side;
non-positive prices are dropped silently (NaN has no rational counterpart). -/
def PriceTracker.record (t : PriceTracker) (side : String) (price ts : ℚ) :
    PriceTracker :=
  if price ≤ 0 then t
  else
    { t with history := fun s =>
        if s = side then
          let h := t.history side ++ [⟨price, ts⟩]
          let newest := listMaxQ (h.map (·.timestamp))
          h.filter (fun o => decide (newest - t.lookback_seconds ≤ o.timestamp))
        else t.history s }

/-- Modelled from the spec: `detectFlashCrash(side)` compares the most recent
observation in the retained window to the maximum observation in the window;
with fewer than 2 observations it returns none, otherwise it returns an event
exactly when `(max - latest) / max >= drop_threshold`. -/
def PriceTracker.detect_flash_crash (t : PriceTracker) (side : String) :
    Option FlashCrashEvent :=
  let w := t.history side
  if w.length < 2 then none
  else
    let mx := listMaxQ (w.map (·.price))
    let latest := lastObs w
    if t.drop_threshold ≤ (mx - latest.price) / mx then
      some ⟨side, mx, latest.price, latest.timestamp⟩
    else none

/-- The observations of `side` lying in the trailing `seconds` window,
measured back from the newest retained timestamp for that side. -/
def PriceTracker.sub_window (t : PriceTracker) (side : String) (seconds : ℚ) :
    List PriceObservation :=
  let w := t.history side
  let newest := listMaxQ (w.map (·.timestamp))
  w.filter (fun o => decide (newest - seconds ≤ o.timestamp))

/-- Modelled from the spec: `volatility(side, seconds)` restricts to
observations within the trailing `seconds`; with fewer than 2 it returns 0,
otherwise `(max - min) / mean` over that sub-window, clamped to be `≥ 0`. -/
def PriceTracker.get_volatility (t : PriceTracker) (side : String)
    (seconds : ℚ) : ℚ :=
  let w := t.history side
  let newest := listMaxQ (w.map (·.timestamp))
  let sub := w.filter (fun o => decide (newest - seconds ≤ o.timestamp))
  if sub.length < 2 then 0
  else
    let prices := sub.map (·.price)
    let mean := listSumQ prices / (sub.length : ℚ)
    max 0 ((listMaxQ prices - listMinQ prices) / mean)

/-- The tracker of the spec's flash-crash test: observations
`[t0: 0.05, t0+1s: 0.03]` on side `lower`, lookback 10 s, configurable
drop threshold. -/
def crashTracker (thr : ℚ) : PriceTracker :=
  ((PriceTracker.init 10 thr).record "lower" 0.05 0).record "lower" 0.03 1

/-- Position lifecycle states, spec section 3. -/
inductive PositionState
  | OPEN
  | CLOSING
  | CLOSED
deriving DecidableEq

/-- A tracked position.  Modelled from the spec: the `lib` package providing
`PositionManager` is not under `src/`; fields follow the spec's `Position`
record and the keyword arguments of `open_position` in
`DailyMarketBot.place_entry_order`. -/
structure Position where
  id : ℕ
  side : String
  token_id : String
  entry_price : ℚ
  size : ℚ
  order_id : String
  state : PositionState
  entry_reason : String
  opened_at : ℚ
  closed_at : Option ℚ
  realized_pnl : Option ℚ
deriving DecidableEq

/-- Rejection reasons of `open`, spec section 7. -/
inductive OpenError
  | DuplicateSide
  | CapacityExceeded
deriving DecidableEq

/-- Errors of the ledger close transitions, spec section 7. -/
inductive CloseError
  | NotFound
  | NotClosing
deriving DecidableEq

/-- The two exit triggers of `evaluateExits`. -/
inductive ExitKind
  | TAKE_PROFIT
  | STOP_LOSS
deriving DecidableEq

/-- A position that is OPEN or CLOSING (not CLOSED). -/
def Position.nonClosed (p : Position) : Bool :=
  decide (p.state ≠ PositionState.CLOSED)

/-- The position state machine, capacity enforcement and exit evaluation.
Modelled from the spec, sections 4.2 and 9: `take_profit` and `stop_loss` are
fields on the shared manager object — the source "recomputes
take_profit/stop_loss as fields on a shared manager object at each entry
rather than per-position" — and exit evaluation reads the manager's current
fields, not values stored per position. -/
structure PositionManager where
  take_profit : ℚ
  stop_loss : ℚ
  max_positions : ℕ
  positions : List Position
  next_id : ℕ

/-- A fresh manager with no positions, as constructed in
`DailyMarketBot.__init__` (`take_profit=0.15, stop_loss=0.50,
max_positions=2`). -/
def PositionManager.init (tp sl : ℚ) (maxp : ℕ) : PositionManager :=
  ⟨tp, sl, maxp, [], 0⟩

/-- Does a non-closed position for `side` pass this predicate. -/
def sidePred (side : String) (p : Position) : Bool :=
  decide (p.side = side) && p.nonClosed

/-- Modelled from the spec: a non-closed (OPEN or CLOSING) position exists
for `side`. -/
def PositionManager.has_position (m : PositionManager) (side : String) : Bool :=
  m.positions.any (sidePred side)

/-- Number of non-CLOSED positions in the ledger. -/
def PositionManager.count_nonclosed (m : PositionManager) : ℕ :=
  m.positions.countP Position.nonClosed

/-- Modelled from the spec: `open` fails with `DuplicateSide` if a position
is already OPEN/CLOSING for that side, or `CapacityExceeded` if the number of
non-CLOSED positions would exceed `max_positions`; on success it creates a
Position in state OPEN and returns it. -/
def PositionManager.open_position (m : PositionManager) (side token_id : String)
    (entry_price size : ℚ) (order_id : String) (now : ℚ) :
    Except OpenError (Position × PositionManager) :=
  if m.has_position side then .error .DuplicateSide
  else if m.max_positions ≤ m.count_nonclosed then .error .CapacityExceeded
  else
    let p : Position :=
      ⟨m.next_id, side, token_id, entry_price, size, order_id,
        PositionState.OPEN, "", now, none, none⟩
    Except.ok (p, { m with positions := m.positions ++ [p], next_id := m.next_id + 1 })

/-- Exit trigger for one position at current price `cur`, take-profit checked
first, with the manager-level offsets `tp` and `sl`:
`TAKE_PROFIT` if `cur - entry_price ≥ tp`, else `STOP_LOSS` if
`entry_price - cur ≥ sl`; paired with `unrealizedPnl = (cur - entry) * size`. -/
def exit_signal (tp sl cur : ℚ) (p : Position) : Option (ExitKind × ℚ) :=
  let pnl := (cur - p.entry_price) * p.size
  if tp ≤ cur - p.entry_price then some (ExitKind.TAKE_PROFIT, pnl)
  else if sl ≤ p.entry_price - cur then some (ExitKind.STOP_LOSS, pnl)
  else none

/-- Row produced by `evaluateExits` for one position: only OPEN positions
whose side has a current price are considered; others are skipped. -/
def exit_row (tp sl : ℚ) (prices : String → Option ℚ) (p : Position) :
    Option (Position × ExitKind × ℚ) :=
  if p.state = PositionState.OPEN then
    (prices p.side).bind
      (fun cur => (exit_signal tp sl cur p).map (fun kv => (p, kv.1, kv.2)))
  else none

/-- Modelled from the spec: `evaluateExits(currentPrices)` returns the
triggered `(position, exitKind, unrealizedPnl)` rows and transitions the
matching positions to CLOSING. -/
def PositionManager.check_all_exits (m : PositionManager)
    (prices : String → Option ℚ) :
    List (Position × ExitKind × ℚ) × PositionManager :=
  (m.positions.filterMap (exit_row m.take_profit m.stop_loss prices),
   { m with positions := m.positions.map (fun p =>
       if (exit_row m.take_profit m.stop_loss prices p).isSome then
         { p with state := PositionState.CLOSING }
       else p) })

/-- Modelled from the spec: `confirmClose(positionId, realizedPnl)`
transitions CLOSING → CLOSED, setting `closed_at` and `realized_pnl`;
`NotFound` if no position has this id, `NotClosing` if it is not CLOSING. -/
def PositionManager.confirm_close (m : PositionManager) (id : ℕ)
    (realized_pnl now : ℚ) : Except CloseError (Position × PositionManager) :=
  match m.positions.find? (fun p => decide (p.id = id)) with
  | none => .error .NotFound
  | some p =>
    if p.state = PositionState.CLOSING then
      let p' := { p with
        state := PositionState.CLOSED
        closed_at := some now
        realized_pnl := some realized_pnl }
      Except.ok (p',
        { m with positions := m.positions.map (fun q => if q.id = id then p' else q) })
    else .error .NotClosing

/-- Modelled from the spec: `revertToOpen(positionId)` transitions
CLOSING → OPEN (retry path when the exit order failed). -/
def PositionManager.revert_to_open (m : PositionManager) (id : ℕ) :
    Except CloseError (Position × PositionManager) :=
  match m.positions.find? (fun p => decide (p.id = id)) with
  | none => .error .NotFound
  | some p =>
    if p.state = PositionState.CLOSING then
      let p' := { p with state := PositionState.OPEN }
      Except.ok (p',
        { m with positions := m.positions.map (fun q => if q.id = id then p' else q) })
    else .error .NotClosing

/-- Aggregate statistics over CLOSED positions, spec section 3. -/
structure AggregateStats where
  trades_closed : ℕ
  wins : ℕ
  win_rate : ℚ
  total_pnl : ℚ
deriving DecidableEq

/-- Modelled from the spec: `stats()` folds over CLOSED positions. -/
def PositionManager.get_stats (m : PositionManager) : AggregateStats :=
  let closed := m.positions.filter (fun p => decide (p.state = PositionState.CLOSED))
  let wins := (closed.filter (fun p => decide (0 < p.realized_pnl.getD 0))).length
  ⟨closed.length, wins,
    if closed.length = 0 then 0 else (wins : ℚ) / (closed.length : ℚ),
    listSumQ (closed.map (fun p => p.realized_pnl.getD 0))⟩

/-- One ledger operation, as issued by the driving loop: an open attempt, an
exit evaluation, a close confirmation, a revert, or the shared take-profit /
stop-loss field mutation performed by `place_entry_order`. -/
inductive LedgerOp where
  | op_open (side token_id : String) (entry_price size : ℚ)
      (order_id : String) (now : ℚ)
  | op_exits (prices : String → Option ℚ)
  | op_confirm (id : ℕ) (realized_pnl now : ℚ)
  | op_revert (id : ℕ)
  | op_set_offsets (tp sl : ℚ)

/-- Apply one ledger operation; failed transitions leave the ledger as is. -/
def PositionManager.apply (m : PositionManager) : LedgerOp → PositionManager
  | .op_open side tok e sz oid now =>
      match m.open_position side tok e sz oid now with
      | .ok (_, m') => m'
      | .error _ => m
  | .op_exits prices => (m.check_all_exits prices).2
  | .op_confirm id pnl now =>
      match m.confirm_close id pnl now with
      | .ok (_, m') => m'
      | .error _ => m
  | .op_revert id =>
      match m.revert_to_open id with
      | .ok (_, m') => m'
      | .error _ => m
  | .op_set_offsets tp sl => { m with take_profit := tp, stop_loss := sl }

/-- Run a sequence of ledger operations. -/
def PositionManager.run (m : PositionManager) (ops : List LedgerOp) :
    PositionManager :=
  ops.foldl PositionManager.apply m

/-- The bot state relevant to the strategy layer of
`src/live_daily_bot.py` (`DailyMarketBot.__init__`): position size, the price
tracker, the position manager and the two token ids.  Network clients,
strikes, market slugs and display state are orchestrator plumbing with no
effect on the verified logic. -/
structure DailyMarketBot where
  position_size : ℚ
  price_tracker : PriceTracker
  position_mgr : PositionManager
  lower_token_id : String
  upper_token_id : String

/-- Embedding of `DailyMarketBot.calculate_exit_target` (the method ignores
`self`):

```python
if entry_price <= 0.015:
    return min(entry_price + 0.20, 0.30)
elif entry_price <= 0.030:
    if volatility > 0.10:
        return entry_price + 0.18
    elif volatility > 0.05:
        return entry_price + 0.15
    else:
        return entry_price + 0.12
else:
    return entry_price + 0.12
```
-/
def calculate_exit_target (entry_price volatility : ℚ) : ℚ :=
  if entry_price ≤ 0.015 then min (entry_price + 0.20) 0.30
  else if entry_price ≤ 0.030 then
    if 0.10 < volatility then entry_price + 0.18
    else if 0.05 < volatility then entry_price + 0.15
    else entry_price + 0.12
  else entry_price + 0.12

/-- Embedding of `DailyMarketBot.should_enter`: the ordered entry chain
(position exists → price range → PANIC_DIP → HIGH_VOL → MED_VOL →
no_signal).  `if flash_event:` on an `Optional` is truthiness, i.e.
`isSome`. -/
def DailyMarketBot.should_enter (bot : DailyMarketBot) (side : String)
    (current_price : ℚ) : Bool × String :=
  if bot.position_mgr.has_position side then (false, "position_exists")
  else if current_price < 0.005 ∨ 0.06 < current_price then
    (false, "price_out_of_range")
  else if (bot.price_tracker.detect_flash_crash side).isSome then
    (true, "PANIC_DIP")
  else
    let volatility := bot.price_tracker.get_volatility side 60
    if 0.08 < volatility ∧ current_price ≤ 0.06 then (true, "HIGH_VOL")
    else if 0.05 < volatility ∧ current_price ≤ 0.04 then (true, "MED_VOL")
    else (false, "no_signal")

/-- Embedding of `DailyMarketBot.place_entry_order`.  The order placement
itself is external I/O; its outcome is the `order_success` input.  On
success the source recomputes the 60-second volatility, derives the exit
target and stop delta, assigns `position_mgr.take_profit` and
`position_mgr.stop_loss` (shared manager fields), opens the position and
stamps its `entry_reason`.  Returns whether a position was opened, and the
updated bot. -/
def DailyMarketBot.place_entry_order (bot : DailyMarketBot) (side : String)
    (price : ℚ) (reason : String) (order_success : Bool) (order_id : String)
    (now : ℚ) : Bool × DailyMarketBot :=
  let token_id := if side = "lower" then bot.lower_token_id else bot.upper_token_id
  let size := bot.position_size / price
  if order_success then
    let volatility := bot.price_tracker.get_volatility side 60
    let exit_target := calculate_exit_target price volatility
    let stop_delta := price * 0.50
    let mgr0 := { bot.position_mgr with
      take_profit := exit_target - price
      stop_loss := stop_delta }
    match mgr0.open_position side token_id price size order_id now with
    | Except.ok (p, mgr1) =>
        let upd : Position → Position :=
          fun q => if q.id = p.id then { q with entry_reason := reason } else q
        let mgr2 := { mgr1 with positions := mgr1.positions.map upd }
        (true, { bot with position_mgr := mgr2 })
    | Except.error _ => (false, { bot with position_mgr := mgr0 })
  else (false, bot)

/-- C5: `detectFlashCrash` returns `some ⟨max, latest⟩` exactly when the
retained window holds at least 2 observations and
`(max - latest) / max ≥ drop_threshold`, and `none` with fewer than 2
observations; on `[t0: 0.05, t0+1s: 0.03]` it fires with threshold 0.30 and
stays silent with threshold 0.41. -/
theorem detect_flash_crash_spec (t : PriceTracker) (side : String) :
    (t.detect_flash_crash side =
      if 2 ≤ (t.history side).length ∧
          t.drop_threshold ≤
            (listMaxQ ((t.history side).map (·.price)) -
              (lastObs (t.history side)).price) /
              listMaxQ ((t.history side).map (·.price)) then
        some ⟨side, listMaxQ ((t.history side).map (·.price)),
          (lastObs (t.history side)).price, (lastObs (t.history side)).timestamp⟩
      else none) ∧
    (crashTracker 0.30).detect_flash_crash "lower" =
      some ⟨"lower", 0.05, 0.03, 1⟩ ∧
    (crashTracker 0.41).detect_flash_crash "lower" = none := by
  refine ⟨?_, ?_, ?_⟩
  · unfold PriceTracker.detect_flash_crash
    by_cases h2 : (t.history side).length < 2
    · simp only [h2, if_true]
      rw [if_neg]
      rintro ⟨h, -⟩
      omega
    · simp only [h2, if_false]
      by_cases hthr : t.drop_threshold ≤
          (listMaxQ ((t.history side).map (·.price)) -
            (lastObs (t.history side)).price) /
            listMaxQ ((t.history side).map (·.price))
      · rw [if_pos hthr, if_pos ⟨by omega, hthr⟩]
      · rw [if_neg hthr, if_neg (by rintro ⟨-, h⟩; exact hthr h)]
  · norm_num [crashTracker, PriceTracker.init, PriceTracker.record,
      PriceTracker.detect_flash_crash, listMaxQ, lastObs]
  · norm_num [crashTracker, PriceTracker.init, PriceTracker.record,
      PriceTracker.detect_flash_crash, listMaxQ, lastObs]

/-- C6: `volatility` returns exactly 0 when fewer than 2 observations fall in
the trailing window, and otherwise `(max - min) / mean` over that sub-window,
clamped to be `≥ 0` (so the result is never negative). -/
theorem get_volatility_spec (t : PriceTracker) (side : String) (seconds : ℚ) :
    (t.get_volatility side seconds =
      if (t.sub_window side seconds).length < 2 then 0
      else
        max 0 ((listMaxQ ((t.sub_window side seconds).map (·.price)) -
            listMinQ ((t.sub_window side seconds).map (·.price))) /
          (listSumQ ((t.sub_window side seconds).map (·.price)) /
            ((t.sub_window side seconds).length : ℚ)))) ∧
    0 ≤ t.get_volatility side seconds := by
  constructor
  · rfl
  · unfold PriceTracker.get_volatility
    dsimp only
    split
    · exact le_refl 0
    · exact le_max_left 0 _

/-- Helper: `has_position` is the Boolean of "a non-closed position exists
for this side". -/
theorem has_position_iff (m : PositionManager) (side : String) :
    m.has_position side = true ↔
      ∃ p ∈ m.positions, p.side = side ∧ p.state ≠ PositionState.CLOSED := by
  unfold PositionManager.has_position sidePred Position.nonClosed
  rw [List.any_eq_true]
  constructor
  · rintro ⟨p, hp, h⟩
    rw [Bool.and_eq_true, decide_eq_true_iff, decide_eq_true_iff] at h
    exact ⟨p, hp, h⟩
  · rintro ⟨p, hp, h1, h2⟩
    refine ⟨p, hp, ?_⟩
    rw [Bool.and_eq_true, decide_eq_true_iff, decide_eq_true_iff]
    exact ⟨h1, h2⟩

/-- C3: `calculateExitTarget` is the tiered lookup of the spec:
`min(e + 0.20, 0.30)` for `e ≤ 0.015`; for `0.015 < e ≤ 0.030` either
`e + 0.18` (`v > 0.10`), `e + 0.15` (`0.05 < v ≤ 0.10`) or `e + 0.12`
(`v ≤ 0.05`); and `e + 0.12` for `e > 0.030`; in particular it maps
`(0.02, 0.12)` to `0.20` and `(0.02, 0.02)` to `0.14`. -/
theorem calculate_exit_target_spec (e v : ℚ) :
    (e ≤ 0.015 → calculate_exit_target e v = min (e + 0.20) 0.30) ∧
    (0.015 < e → e ≤ 0.030 → 0.10 < v → calculate_exit_target e v = e + 0.18) ∧
    (0.015 < e → e ≤ 0.030 → 0.05 < v → v ≤ 0.10 →
      calculate_exit_target e v = e + 0.15) ∧
    (0.015 < e → e ≤ 0.030 → v ≤ 0.05 → calculate_exit_target e v = e + 0.12) ∧
    (0.030 < e → calculate_exit_target e v = e + 0.12) ∧
    calculate_exit_target 0.02 0.12 = 0.20 ∧
    calculate_exit_target 0.02 0.02 = 0.14 := by
  refine ⟨fun h1 => ?_, fun h1 h2 h3 => ?_, fun h1 h2 h3 h4 => ?_,
    fun h1 h2 h3 => ?_, fun h1 => ?_, by norm_num [calculate_exit_target],
    by norm_num [calculate_exit_target]⟩
  · unfold calculate_exit_target
    rw [if_pos h1]
  · unfold calculate_exit_target
    rw [if_neg (not_le.mpr h1), if_pos h2, if_pos h3]
  · unfold calculate_exit_target
    rw [if_neg (not_le.mpr h1), if_pos h2, if_neg (not_lt.mpr h4), if_pos h3]
  · unfold calculate_exit_target
    rw [if_neg (not_le.mpr h1), if_pos h2,
      if_neg (not_lt.mpr (h3.trans (by norm_num))), if_neg (not_lt.mpr h3)]
  · unfold calculate_exit_target
    rw [if_neg (not_le.mpr ((by norm_num : (0.015 : ℚ) < 0.030).trans h1)),
      if_neg (not_le.mpr h1)]

/-- Witness for C3: each tier of `calculate_exit_target_spec` applied at a
concrete entry price and volatility. -/
theorem calculate_exit_target_spec_witness :
    calculate_exit_target 0.01 0.2 = min ((0.01 : ℚ) + 0.20) 0.30 ∧
    calculate_exit_target 0.02 0.12 = (0.02 : ℚ) + 0.18 ∧
    calculate_exit_target 0.02 0.08 = (0.02 : ℚ) + 0.15 ∧
    calculate_exit_target 0.02 0.02 = (0.02 : ℚ) + 0.12 ∧
    calculate_exit_target 0.05 0.3 = (0.05 : ℚ) + 0.12 :=
  ⟨(calculate_exit_target_spec 0.01 0.2).1 (by norm_num),
   (calculate_exit_target_spec 0.02 0.12).2.1 (by norm_num) (by norm_num)
     (by norm_num),
   (calculate_exit_target_spec 0.02 0.08).2.2.1 (by norm_num) (by norm_num)
     (by norm_num) (by norm_num),
   (calculate_exit_target_spec 0.02 0.02).2.2.2.1 (by norm_num) (by norm_num)
     (by norm_num),
   (calculate_exit_target_spec 0.05 0.3).2.2.2.2.1 (by norm_num)⟩

/-- C2: `should_enter` is the ordered chain, first match wins:
`position_exists` when a non-closed position exists for the side, else
`price_out_of_range` when the price lies outside `[0.005, 0.06]`, else
`PANIC_DIP` when `detectFlashCrash` fires, else `HIGH_VOL` when the
60-second volatility exceeds 0.08 and the price is at most 0.06, else
`MED_VOL` when it exceeds 0.05 and the price is at most 0.04, else
`no_signal`. -/
theorem should_enter_chain (bot : DailyMarketBot) (side : String) (price : ℚ) :
    bot.should_enter side price =
      if ∃ p ∈ bot.position_mgr.positions,
          p.side = side ∧ p.state ≠ PositionState.CLOSED then
        (false, "position_exists")
      else if ¬ (0.005 ≤ price ∧ price ≤ 0.06) then (false, "price_out_of_range")
      else if (bot.price_tracker.detect_flash_crash side).isSome then
        (true, "PANIC_DIP")
      else if 0.08 < bot.price_tracker.get_volatility side 60 ∧ price ≤ 0.06 then
        (true, "HIGH_VOL")
      else if 0.05 < bot.price_tracker.get_volatility side 60 ∧ price ≤ 0.04 then
        (true, "MED_VOL")
      else (false, "no_signal") := by
  have e2 : (price < 0.005 ∨ 0.06 < price) ↔ ¬ (0.005 ≤ price ∧ price ≤ 0.06) := by
    constructor
    · rintro (h | h) ⟨h1, h2⟩ <;> linarith
    · intro h
      rcases not_and_or.mp h with h' | h'
      · exact Or.inl (not_le.mp h')
      · exact Or.inr (not_le.mp h')
  unfold DailyMarketBot.should_enter
  exact if_congr (has_position_iff _ _) rfl (if_congr e2 rfl rfl)

/-- C10: whenever `should_enter` accepts, the reason is PANIC_DIP, HIGH_VOL
or MED_VOL, the price lies in `[0.005, 0.06]` and no non-closed position
exists for the side; moreover the boundary prices 0.005 and 0.06 are never
rejected as `price_out_of_range`. -/
theorem should_enter_accept_inv (bot : DailyMarketBot) (side : String)
    (price : ℚ) (r : String)
    (h : bot.should_enter side price = (true, r)) :
    (r = "PANIC_DIP" ∨ r = "HIGH_VOL" ∨ r = "MED_VOL") ∧
    0.005 ≤ price ∧ price ≤ 0.06 ∧
    (¬ ∃ p ∈ bot.position_mgr.positions,
        p.side = side ∧ p.state ≠ PositionState.CLOSED) ∧
    (bot.should_enter side 0.005).2 ≠ "price_out_of_range" ∧
    (bot.should_enter side 0.06).2 ≠ "price_out_of_range" := by
  have hb : ∀ q : ℚ, 0.005 ≤ q → q ≤ 0.06 →
      (bot.should_enter side q).2 ≠ "price_out_of_range" := by
    intro q h1 h2
    simp only [DailyMarketBot.should_enter]
    split_ifs with hA hB hC hD hE
    · simp
    · rcases hB with h' | h'
      · exact absurd h' (not_lt.mpr h1)
      · exact absurd h' (not_lt.mpr h2)
    · simp
    · simp
    · simp
    · simp
  simp only [DailyMarketBot.should_enter] at h
  split_ifs at h with hA hB hC hD hE
  · exact absurd h (by simp)
  · exact absurd h (by simp)
  · injection h with h1 h2
    subst h2
    push_neg at hB
    exact ⟨Or.inl rfl, hB.1, hB.2,
      fun hex => hA ((has_position_iff _ _).mpr hex),
      hb _ (by norm_num) (by norm_num), hb _ (by norm_num) (by norm_num)⟩
  · injection h with h1 h2
    subst h2
    push_neg at hB
    exact ⟨Or.inr (Or.inl rfl), hB.1, hB.2,
      fun hex => hA ((has_position_iff _ _).mpr hex),
      hb _ (by norm_num) (by norm_num), hb _ (by norm_num) (by norm_num)⟩
  · injection h with h1 h2
    subst h2
    push_neg at hB
    exact ⟨Or.inr (Or.inr rfl), hB.1, hB.2,
      fun hex => hA ((has_position_iff _ _).mpr hex),
      hb _ (by norm_num) (by norm_num), hb _ (by norm_num) (by norm_num)⟩
  · exact absurd h (by simp)

/-- The spec's end-to-end scenario: prices 0.04 then 0.028 recorded within
10 s on side `upper`, no open position. -/
def panicBot : DailyMarketBot :=
  ⟨10, ((PriceTracker.init 10 0.30).record "upper" 0.04 0).record "upper" 0.028 9,
   PositionManager.init 0.15 0.50 2, "tokL", "tokU"⟩

/-- Witness for C10: on the spec's 30%-drop scenario `should_enter` accepts
with reason PANIC_DIP, and the theorem's conclusions hold there. -/
theorem should_enter_accept_inv_witness :
    (("PANIC_DIP" = "PANIC_DIP" ∨ "PANIC_DIP" = "HIGH_VOL" ∨
        "PANIC_DIP" = "MED_VOL") ∧
      (0.005 : ℚ) ≤ 0.028 ∧ (0.028 : ℚ) ≤ 0.06 ∧
      (¬ ∃ p ∈ panicBot.position_mgr.positions,
          p.side = "upper" ∧ p.state ≠ PositionState.CLOSED) ∧
      (panicBot.should_enter "upper" 0.005).2 ≠ "price_out_of_range" ∧
      (panicBot.should_enter "upper" 0.06).2 ≠ "price_out_of_range") :=
  should_enter_accept_inv panicBot "upper" 0.028 "PANIC_DIP" (by
    norm_num [DailyMarketBot.should_enter, PositionManager.has_position,
      PositionManager.init, panicBot, PriceTracker.record, PriceTracker.init,
      PriceTracker.detect_flash_crash, listMaxQ, lastObs])

/-- Helper: a successful `open_position` appends one OPEN position carrying
the requested attributes and changes nothing else on the manager. -/
theorem open_position_ok_shape (m : PositionManager) (side tok : String)
    (e sz : ℚ) (oid : String) (now : ℚ) (p : Position) (m' : PositionManager)
    (h : m.open_position side tok e sz oid now = Except.ok (p, m')) :
    m'.take_profit = m.take_profit ∧ m'.stop_loss = m.stop_loss ∧
    m'.max_positions = m.max_positions ∧
    m'.positions = m.positions ++ [p] ∧ m'.next_id = m.next_id + 1 ∧
    p = ⟨m.next_id, side, tok, e, sz, oid, PositionState.OPEN, "", now,
      none, none⟩ := by
  unfold PositionManager.open_position at h
  split_ifs at h
  injection h with h2
  injection h2 with hp hm
  subst hp
  subst hm
  exact ⟨rfl, rfl, rfl, rfl, rfl, rfl⟩

/-- C4: when the entry order succeeds and the position is opened at entry
price `price`, the captured take-profit offset equals
`calculate_exit_target(price, volatility(side, 60 s)) - price` and the
captured stop-loss offset equals `0.5 * price`.  In the source these offsets
live on the shared manager object, so the theorem reads them there. -/
theorem place_entry_order_offsets (bot : DailyMarketBot) (side : String)
    (price : ℚ) (reason order_id : String) (now : ℚ) (bot' : DailyMarketBot)
    (h : bot.place_entry_order side price reason true order_id now =
      (true, bot')) :
    bot'.position_mgr.take_profit =
      calculate_exit_target price (bot.price_tracker.get_volatility side 60) -
        price ∧
    bot'.position_mgr.stop_loss = 0.5 * price := by
  simp only [DailyMarketBot.place_entry_order, if_true] at h
  split at h
  case _ p mgr1 heq =>
    injection h with h1 h2
    subst h2
    obtain ⟨htp, hsl, -, -, -, -⟩ :=
      open_position_ok_shape _ _ _ _ _ _ _ _ _ heq
    refine ⟨?_, ?_⟩
    · show mgr1.take_profit = _
      rw [htp]
    · show mgr1.stop_loss = _
      rw [hsl]
      show price * 0.50 = 0.5 * price
      ring
  case _ =>
    exact absurd h (by simp)

/-- Witness for C4: on the PANIC_DIP scenario bot, a successful entry at
price 0.03 on side `upper` captures exactly the claimed offsets. -/
theorem place_entry_order_offsets_witness :
    (panicBot.place_entry_order "upper" 0.03 "PANIC_DIP" true "o1" 9).2.position_mgr.take_profit =
      calculate_exit_target 0.03 (panicBot.price_tracker.get_volatility "upper" 60) - 0.03 ∧
    (panicBot.place_entry_order "upper" 0.03 "PANIC_DIP" true "o1" 9).2.position_mgr.stop_loss =
      0.5 * 0.03 := by
  have h1 : (panicBot.place_entry_order "upper" 0.03 "PANIC_DIP" true "o1" 9).1 = true := by
    norm_num [DailyMarketBot.place_entry_order, PositionManager.open_position,
      PositionManager.has_position, PositionManager.count_nonclosed, panicBot,
      PositionManager.init]
  exact place_entry_order_offsets panicBot "upper" 0.03 "PANIC_DIP" "o1" 9
    (panicBot.place_entry_order "upper" 0.03 "PANIC_DIP" true "o1" 9).2
    (Prod.ext h1 rfl)

/-- Price history of the offsets-leak scenario: two high-dispersion
lower-side ticks (60-second volatility 0.2). -/
def leakTracker : PriceTracker :=
  ((PriceTracker.init 10 0.30).record "lower" 0.018 0).record "lower" 0.022 1

/-- Start state of the offsets-leak scenario: fresh manager with capacity 2. -/
def leakBot0 : DailyMarketBot :=
  ⟨10, leakTracker, PositionManager.init 0.15 0.50 2, "tokL", "tokU"⟩

/-- After the first entry: a lower-side position opened at 0.02 under
volatility 0.2, capturing take-profit offset 0.18. -/
def leakBot1 : DailyMarketBot :=
  (leakBot0.place_entry_order "lower" 0.02 "HIGH_VOL" true "o1" 5).2

/-- After the second entry: an upper-side position opened at 0.035, which
overwrites the shared take-profit offset with 0.12. -/
def leakBot2 : DailyMarketBot :=
  (leakBot1.place_entry_order "upper" 0.035 "HIGH_VOL" true "o2" 6).2

/-- C1 (refuted by the code): the exit thresholds applied to a position are
not those captured at its open time — opening a second position on the other
side overwrites the shared manager offsets.  Concretely: the lower position
opens at entry 0.02 with take-profit offset 0.18; after the upper entry the
shared offset is 0.12, and exit evaluation then reports TAKE_PROFIT for the
still-open lower position at current price 0.15, although
0.15 - 0.02 = 0.13 is below the offset 0.18 captured at its open. -/
theorem offsets_leak_across_positions :
    leakBot1.position_mgr.take_profit = 0.18 ∧
    leakBot2.position_mgr.take_profit = 0.12 ∧
    (∃ p ∈ leakBot2.position_mgr.positions,
      p.side = "lower" ∧ p.state = PositionState.OPEN ∧ p.entry_price = 0.02) ∧
    ((leakBot2.position_mgr.check_all_exits
        (fun s => if s = "lower" then some 0.15 else none)).1.map
      (fun r => (r.1.side, r.2.1))) = [("lower", ExitKind.TAKE_PROFIT)] ∧
    ¬ ((0.18 : ℚ) ≤ 0.15 - 0.02) := by
  have hne1 : ("upper" : String) ≠ "lower" := by decide
  have hne2 : ("lower" : String) ≠ "upper" := by decide
  have hst1 : PositionState.OPEN ≠ PositionState.CLOSED := by decide
  have hvol : leakTracker.get_volatility "lower" 60 = 0.2 := by
    norm_num [leakTracker, PriceTracker.get_volatility, PriceTracker.record,
      PriceTracker.init, listMaxQ, listMinQ, listSumQ]
  have hvolU : leakTracker.get_volatility "upper" 60 = 0 := by
    norm_num [leakTracker, PriceTracker.get_volatility, PriceTracker.record,
      PriceTracker.init, hne1]
  have h1 : leakBot1 =
      ⟨10, leakTracker,
        ⟨0.18, 0.01, 2,
          [⟨0, "lower", "tokL", 0.02, 500, "o1", PositionState.OPEN,
            "HIGH_VOL", 5, none, none⟩], 1⟩, "tokL", "tokU"⟩ := by
    simp only [leakBot1, DailyMarketBot.place_entry_order, if_true]
    norm_num [PositionManager.open_position, PositionManager.has_position,
      PositionManager.count_nonclosed, leakBot0, PositionManager.init, hvol,
      calculate_exit_target]
  have h2 : leakBot2 =
      ⟨10, leakTracker,
        ⟨0.12, 0.0175, 2,
          [⟨0, "lower", "tokL", 0.02, 500, "o1", PositionState.OPEN,
            "HIGH_VOL", 5, none, none⟩,
           ⟨1, "upper", "tokU", 0.035, 2000/7, "o2", PositionState.OPEN,
            "HIGH_VOL", 6, none, none⟩], 2⟩, "tokL", "tokU"⟩ := by
    simp only [leakBot2, h1, DailyMarketBot.place_entry_order, if_true]
    norm_num [PositionManager.open_position, PositionManager.has_position,
      sidePred, Position.nonClosed, PositionManager.count_nonclosed, hvolU,
      calculate_exit_target, hne1, hne2, hst1, List.countP_cons,
      List.countP_nil]
  refine ⟨by rw [h1], by rw [h2], ?_, ?_, by norm_num⟩
  · refine ⟨⟨0, "lower", "tokL", 0.02, 500, "o1", PositionState.OPEN,
      "HIGH_VOL", 5, none, none⟩, ?_, rfl, rfl, rfl⟩
    rw [h2]
    simp
  · rw [h2]
    norm_num [PositionManager.check_all_exits, List.filterMap_cons, exit_row,
      exit_signal, hne1, hne2, hst1]

/-- Helper: the id-keyed update map used by the close transitions does not
change which element `find?` locates, because the replacement keeps the id. -/
theorem pred_comp_update (id : ℕ) (p' : Position) (hid : p'.id = id) :
    ((fun x : Position => decide (x.id = id)) ∘
      (fun q => if q.id = id then p' else q)) =
      (fun x : Position => decide (x.id = id)) := by
  funext x
  by_cases hx : x.id = id
  · simp [Function.comp, hx, hid]
  · simp [Function.comp, hx]

/-- Helper: shape of a successful `confirm_close`: the found position was
CLOSING with the requested id, the returned position is its CLOSED copy, and
the ledger maps the id to that copy. -/
theorem confirm_close_ok_shape (m : PositionManager) (id : ℕ) (pnl now : ℚ)
    (p : Position) (m' : PositionManager)
    (h : m.confirm_close id pnl now = Except.ok (p, m')) :
    ∃ q, m.positions.find? (fun r => decide (r.id = id)) = some q ∧
      q.state = PositionState.CLOSING ∧ q.id = id ∧
      p = { q with
            state := PositionState.CLOSED
            closed_at := some now
            realized_pnl := some pnl } ∧
      m' = { m with positions :=
        m.positions.map (fun x => if x.id = id then p else x) } := by
  unfold PositionManager.confirm_close at h
  split at h
  · exact absurd h (by simp)
  case _ q heq =>
    split_ifs at h with hq
    · injection h with h2
      injection h2 with hp hm
      subst hp
      subst hm
      exact ⟨q, heq, hq, by simpa using List.find?_some heq, rfl, rfl⟩

/-- C8: `confirmClose` transitions a CLOSING position to CLOSED, setting
`closed_at` and `realized_pnl` exactly once; a second call on the same id
returns `NotClosing` and — since a failed transition leaves the ledger as
is — the ledger and the aggregate stats are unchanged. -/
theorem confirm_close_not_idempotent (m : PositionManager) (id : ℕ)
    (pnl now pnl' now' : ℚ) (p : Position) (m' : PositionManager)
    (h : m.confirm_close id pnl now = Except.ok (p, m')) :
    p.state = PositionState.CLOSED ∧ p.closed_at = some now ∧
    p.realized_pnl = some pnl ∧
    (∃ q ∈ m.positions, q.id = id ∧ q.state = PositionState.CLOSING) ∧
    m'.confirm_close id pnl' now' = Except.error CloseError.NotClosing ∧
    m'.apply (LedgerOp.op_confirm id pnl' now') = m' ∧
    (m'.apply (LedgerOp.op_confirm id pnl' now')).get_stats =
      m'.get_stats := by
  obtain ⟨q, heq, hq, hqid, hp, hm⟩ := confirm_close_ok_shape m id pnl now p m' h
  have hpid : p.id = id := by rw [hp]; exact hqid
  have hpstate : p.state = PositionState.CLOSED := by rw [hp]
  have hfind2 : m'.positions.find? (fun r => decide (r.id = id)) = some p := by
    rw [hm]
    dsimp only
    rw [List.find?_map, pred_comp_update id p hpid, heq]
    simp [hqid]
  have hsec : m'.confirm_close id pnl' now' =
      Except.error CloseError.NotClosing := by
    unfold PositionManager.confirm_close
    rw [hfind2]
    simp [hpstate]
  refine ⟨hpstate, by rw [hp], by rw [hp],
    ⟨q, List.mem_of_find?_eq_some heq, hqid, hq⟩, hsec, ?_, ?_⟩
  · simp only [PositionManager.apply]
    rw [hsec]
  · simp only [PositionManager.apply]
    rw [hsec]

/-- A one-position ledger whose position is CLOSING, about to be confirmed. -/
def closingMgr : PositionManager :=
  ⟨0.18, 0.01, 2,
    [⟨0, "lower", "tokL", 0.02, 500, "o1", PositionState.CLOSING, "PANIC_DIP",
      5, none, none⟩], 1⟩

/-- The position of `closingMgr` after its close is confirmed with
`realized_pnl = 7` at time 9. -/
def pClosed : Position :=
  ⟨0, "lower", "tokL", 0.02, 500, "o1", PositionState.CLOSED, "PANIC_DIP",
    5, some 9, some 7⟩

/-- The ledger of `closingMgr` after the confirmed close. -/
def mClosed : PositionManager := ⟨0.18, 0.01, 2, [pClosed], 1⟩

/-- Witness for C8: confirming the close of `closingMgr`'s position yields
`pClosed`, and a second confirmation attempt returns `NotClosing`, leaving
ledger and stats unchanged. -/
theorem confirm_close_not_idempotent_witness :
    pClosed.state = PositionState.CLOSED ∧ pClosed.closed_at = some 9 ∧
    pClosed.realized_pnl = some 7 ∧
    (∃ q ∈ closingMgr.positions, q.id = 0 ∧
      q.state = PositionState.CLOSING) ∧
    mClosed.confirm_close 0 8 11 = Except.error CloseError.NotClosing ∧
    mClosed.apply (LedgerOp.op_confirm 0 8 11) = mClosed ∧
    (mClosed.apply (LedgerOp.op_confirm 0 8 11)).get_stats =
      mClosed.get_stats :=
  confirm_close_not_idempotent closingMgr 0 7 9 8 11 pClosed mClosed (by
    simp [PositionManager.confirm_close, closingMgr, pClosed, mClosed,
      List.find?])

/-- Helper: if `exit_row` yields a triple, its position component is the row
position itself, which was OPEN with a current price. -/
theorem exit_row_eq_some (tp sl : ℚ) (prices : String → Option ℚ)
    (r q : Position) (k : ExitKind) (v : ℚ)
    (h : exit_row tp sl prices r = some (q, k, v)) :
    r = q ∧ r.state = PositionState.OPEN ∧
    ∃ cur, prices r.side = some cur ∧ exit_signal tp sl cur r = some (k, v) := by
  unfold exit_row at h
  split_ifs at h with hst
  cases hcv : prices r.side with
  | none =>
    rw [hcv] at h
    exact absurd h (by simp)
  | some cur =>
    rw [hcv, Option.some_bind] at h
    cases hsig : exit_signal tp sl cur r with
    | none =>
      rw [hsig] at h
      exact absurd h (by simp)
    | some kv =>
      rw [hsig] at h
      cases kv with
      | mk k0 v0 =>
        simp only [Option.map_some', Option.some.injEq, Prod.mk.injEq] at h
        obtain ⟨hr, hk, hv⟩ := h
        exact ⟨hr, hst, cur, rfl, by rw [hsig, hk, hv]⟩

/-- Helper: membership in the rows returned by `check_all_exits` is exactly
membership of the position together with its own `exit_row` result. -/
theorem mem_check_all_exits (m : PositionManager) (prices : String → Option ℚ)
    (q : Position) (k : ExitKind) (v : ℚ) :
    (q, k, v) ∈ (m.check_all_exits prices).1 ↔
      q ∈ m.positions ∧
        exit_row m.take_profit m.stop_loss prices q = some (q, k, v) := by
  unfold PositionManager.check_all_exits
  rw [List.mem_filterMap]
  constructor
  · rintro ⟨r, hr, hrow⟩
    obtain ⟨hrq, -, -⟩ := exit_row_eq_some _ _ _ _ _ _ _ hrow
    subst hrq
    exact ⟨hr, hrow⟩
  · rintro ⟨hq, hrow⟩
    exact ⟨q, hq, hrow⟩

/-- C9: for every OPEN position whose side has a current price,
`evaluateExits` pairs it with `unrealizedPnl = (cur - entry) * size` and
checks take-profit before stop-loss: TAKE_PROFIT exactly when
`cur - entry ≥ takeProfitOffset`, otherwise STOP_LOSS exactly when
`entry - cur ≥ stopLossOffset`; positions whose side has no price are
skipped; and with take-profit offset 0.18 and entry 0.02, TAKE_PROFIT fires
exactly when the current price is at least 0.20. -/
theorem check_all_exits_spec (m : PositionManager)
    (prices : String → Option ℚ) (p : Position) (cur : ℚ)
    (hp : p ∈ m.positions) (hopen : p.state = PositionState.OPEN)
    (hcur : prices p.side = some cur) :
    ((p, ExitKind.TAKE_PROFIT, (cur - p.entry_price) * p.size) ∈
        (m.check_all_exits prices).1 ↔
      m.take_profit ≤ cur - p.entry_price) ∧
    ((p, ExitKind.STOP_LOSS, (cur - p.entry_price) * p.size) ∈
        (m.check_all_exits prices).1 ↔
      cur - p.entry_price < m.take_profit ∧
        m.stop_loss ≤ p.entry_price - cur) ∧
    (∀ q ∈ m.positions, prices q.side = none →
      ∀ (k : ExitKind) (v : ℚ), (q, k, v) ∉ (m.check_all_exits prices).1) ∧
    (m.take_profit = 0.18 → p.entry_price = 0.02 →
      ((p, ExitKind.TAKE_PROFIT, (cur - p.entry_price) * p.size) ∈
          (m.check_all_exits prices).1 ↔ 0.20 ≤ cur)) := by
  have hrow : exit_row m.take_profit m.stop_loss prices p =
      (exit_signal m.take_profit m.stop_loss cur p).map
        (fun kv => (p, kv.1, kv.2)) := by
    unfold exit_row
    rw [if_pos hopen, hcur, Option.some_bind]
  have htp : ((p, ExitKind.TAKE_PROFIT, (cur - p.entry_price) * p.size) ∈
      (m.check_all_exits prices).1 ↔ m.take_profit ≤ cur - p.entry_price) := by
    rw [mem_check_all_exits, hrow]
    constructor
    · rintro ⟨-, hsig⟩
      unfold exit_signal at hsig
      split_ifs at hsig with h1 h2
      · exact h1
      · exact absurd hsig (by simp)
      · exact absurd hsig (by simp)
    · intro hcond
      exact ⟨hp, by simp [exit_signal, hcond]⟩
  refine ⟨htp, ?_, ?_, ?_⟩
  · rw [mem_check_all_exits, hrow]
    constructor
    · rintro ⟨-, hsig⟩
      unfold exit_signal at hsig
      split_ifs at hsig with h1 h2
      · exact absurd hsig (by simp)
      · exact ⟨not_le.mp h1, h2⟩
      · exact absurd hsig (by simp)
    · rintro ⟨h1, h2⟩
      exact ⟨hp, by simp [exit_signal, not_le.mpr h1, h2]⟩
  · intro q hq hnone k v hmem
    obtain ⟨-, hrowq⟩ := (mem_check_all_exits m prices q k v).mp hmem
    unfold exit_row at hrowq
    split_ifs at hrowq
    rw [hnone] at hrowq
    exact absurd hrowq (by simp)
  · intro htp18 he
    rw [htp, htp18, he]
    constructor
    · intro h
      linarith
    · intro h
      linarith

/-- An OPEN position at entry 0.02 with size 500. -/
def pOpen : Position :=
  ⟨0, "lower", "tokL", 0.02, 500, "o1", PositionState.OPEN, "PANIC_DIP", 5,
    none, none⟩

/-- A ledger holding `pOpen` with manager offsets `take_profit = 0.18`,
`stop_loss = 0.01`. -/
def exitMgr : PositionManager := ⟨0.18, 0.01, 2, [pOpen], 1⟩

/-- A price map with a lower-side price of 0.20 and no upper-side price. -/
def exitPrices : String → Option ℚ :=
  fun s => if s = "lower" then some 0.20 else none

/-- Witness for C9: the exit evaluation of `exitMgr` at lower price 0.20,
where the position entered at 0.02 with take-profit offset 0.18. -/
theorem check_all_exits_spec_witness :
    ((pOpen, ExitKind.TAKE_PROFIT,
        ((0.20 : ℚ) - pOpen.entry_price) * pOpen.size) ∈
        (exitMgr.check_all_exits exitPrices).1 ↔
      exitMgr.take_profit ≤ (0.20 : ℚ) - pOpen.entry_price) ∧
    ((pOpen, ExitKind.STOP_LOSS,
        ((0.20 : ℚ) - pOpen.entry_price) * pOpen.size) ∈
        (exitMgr.check_all_exits exitPrices).1 ↔
      (0.20 : ℚ) - pOpen.entry_price < exitMgr.take_profit ∧
        exitMgr.stop_loss ≤ pOpen.entry_price - 0.20) ∧
    (∀ q ∈ exitMgr.positions, exitPrices q.side = none →
      ∀ (k : ExitKind) (v : ℚ),
        (q, k, v) ∉ (exitMgr.check_all_exits exitPrices).1) ∧
    (exitMgr.take_profit = 0.18 → pOpen.entry_price = 0.02 →
      ((pOpen, ExitKind.TAKE_PROFIT,
          ((0.20 : ℚ) - pOpen.entry_price) * pOpen.size) ∈
          (exitMgr.check_all_exits exitPrices).1 ↔ (0.20 : ℚ) ≤ 0.20)) :=
  check_all_exits_spec exitMgr exitPrices pOpen 0.20
    (by simp [exitMgr, pOpen]) rfl (by simp [exitPrices, pOpen])

/-- Helper: not-CLOSED is the same as OPEN-or-CLOSING. -/
theorem state_not_closed_iff (st : PositionState) :
    st ≠ PositionState.CLOSED ↔
      st = PositionState.OPEN ∨ st = PositionState.CLOSING := by
  cases st <;> simp

/-- Helper: `countP` is unchanged under a map that preserves the predicate
pointwise. -/
theorem countP_map_eq (l : List Position) (f : Position → Position)
    (pr : Position → Bool) (hf : ∀ p, pr (f p) = pr p) :
    (l.map f).countP pr = l.countP pr := by
  rw [List.countP_map]
  exact List.countP_congr (fun x _ => by simp [Function.comp, hf])

/-- Helper: the CLOSING-marking map of `check_all_exits` preserves side,
non-closedness and id of every position. -/
theorem exits_update_pointwise (tp sl : ℚ) (prices : String → Option ℚ)
    (p : Position) :
    (if (exit_row tp sl prices p).isSome then
        { p with state := PositionState.CLOSING } else p).side = p.side ∧
    Position.nonClosed (if (exit_row tp sl prices p).isSome then
        { p with state := PositionState.CLOSING } else p) =
      Position.nonClosed p ∧
    (if (exit_row tp sl prices p).isSome then
        { p with state := PositionState.CLOSING } else p).id = p.id := by
  by_cases h : (exit_row tp sl prices p).isSome
  · have hst : p.state = PositionState.OPEN := by
      unfold exit_row at h
      by_contra hc
      rw [if_neg hc] at h
      simp at h
    rw [if_pos h]
    refine ⟨rfl, ?_, rfl⟩
    unfold Position.nonClosed
    rw [hst]
    rfl
  · simp [h]

/-- Helper: the id-keyed replacement map keeps the list of ids. -/
theorem map_update_ids (l : List Position) (id : ℕ) (p' : Position)
    (hid : p'.id = id) :
    (l.map (fun x => if x.id = id then p' else x)).map Position.id =
      l.map Position.id := by
  rw [List.map_map]
  apply List.map_congr_left
  intro x hx
  by_cases hxid : x.id = id
  · simp [Function.comp, hxid, hid]
  · simp [Function.comp, hxid]

/-- Helper: replacing the (unique) position with a given id can only lower a
`countP`, provided the predicate survives the replacement on that position. -/
theorem close_update_countP_le (l : List Position) (id : ℕ) (q p' : Position)
    (hnd : (l.map Position.id).Nodup) (hq : q ∈ l) (hqid : q.id = id)
    (pr : Position → Bool) (hpr : pr p' = true → pr q = true) :
    (l.map (fun x => if x.id = id then p' else x)).countP pr ≤
      l.countP pr := by
  rw [List.countP_map]
  apply List.countP_mono_left
  intro x hx hfx
  rw [Function.comp_apply] at hfx
  by_cases hxid : x.id = id
  · have hxq : x = q :=
      List.inj_on_of_nodup_map hnd hx hq (by rw [hxid, hqid])
    subst hxq
    rw [if_pos hxid] at hfx
    exact hpr hfx
  · rwa [if_neg hxid] at hfx

/-- Helper: shape of a successful `revert_to_open`: the found position was
CLOSING with the requested id, the returned position is its OPEN copy, and
the ledger maps the id to that copy. -/
theorem revert_to_open_ok_shape (m : PositionManager) (id : ℕ)
    (p : Position) (m' : PositionManager)
    (h : m.revert_to_open id = Except.ok (p, m')) :
    ∃ q, m.positions.find? (fun r => decide (r.id = id)) = some q ∧
      q.state = PositionState.CLOSING ∧ q.id = id ∧
      p = { q with state := PositionState.OPEN } ∧
      m' = { m with positions :=
        m.positions.map (fun x => if x.id = id then p else x) } := by
  unfold PositionManager.revert_to_open at h
  split at h
  · exact absurd h (by simp)
  case _ q heq =>
    split_ifs at h with hq
    injection h with h2
    injection h2 with hp hm
    subst hp
    subst hm
    exact ⟨q, heq, hq, by simpa using List.find?_some heq, rfl, rfl⟩

/-- The inductive ledger invariant: ids are unique and below `next_id`, each
side carries at most one non-closed position, and the non-closed total is
within capacity. -/
def GoodLedger (m : PositionManager) : Prop :=
  (m.positions.map Position.id).Nodup ∧
  (∀ p ∈ m.positions, p.id < m.next_id) ∧
  (∀ s : String, m.positions.countP (sidePred s) ≤ 1) ∧
  m.count_nonclosed ≤ m.max_positions

/-- Helper: a fresh ledger satisfies the invariant. -/
theorem goodledger_init (tp sl : ℚ) (maxp : ℕ) :
    GoodLedger (PositionManager.init tp sl maxp) := by
  refine ⟨by simp [PositionManager.init], by simp [PositionManager.init],
    fun s => by simp [PositionManager.init],
    by simp [PositionManager.init, PositionManager.count_nonclosed]⟩

/-- Helper: every ledger operation preserves the invariant. -/
theorem apply_preserves_GoodLedger (m : PositionManager) (op : LedgerOp)
    (h : GoodLedger m) : GoodLedger (m.apply op) := by
  cases op with
  | op_open side tok e sz oid now =>
    simp only [PositionManager.apply]
    cases hres : m.open_position side tok e sz oid now with
    | error err => exact h
    | ok v =>
      obtain ⟨hnd, hbound, hside, hcap⟩ := h
      obtain ⟨p, m'⟩ := v
      show GoodLedger m'
      have hconds : m.has_position side = false ∧
          m.count_nonclosed < m.max_positions := by
        unfold PositionManager.open_position at hres
        split_ifs at hres with h1 h2
        exact ⟨by simpa using h1, by omega⟩
      obtain ⟨hdup, hcaplt⟩ := hconds
      obtain ⟨-, -, hmmax, hpos, hnext, hp⟩ :=
        open_position_ok_shape _ _ _ _ _ _ _ _ _ hres
      refine ⟨?_, ?_, ?_, ?_⟩
      · rw [hpos, List.map_append, List.nodup_append]
        refine ⟨hnd, by simp, ?_⟩
        rw [hp]
        simp only [List.map_cons, List.map_nil]
        rw [List.disjoint_singleton]
        intro hmem
        obtain ⟨q, hq, hqid⟩ := List.mem_map.mp hmem
        exact absurd hqid (Nat.ne_of_lt (hbound q hq))
      · intro q hq
        rw [hnext]
        rw [hpos] at hq
        rcases List.mem_append.mp hq with hq' | hq'
        · exact Nat.lt_succ_of_lt (hbound q hq')
        · rw [List.mem_singleton] at hq'
          subst hq'
          rw [hp]
          exact Nat.lt_succ_self _
      · intro s
        rw [hpos, List.countP_append]
        by_cases hs : s = side
        · subst hs
          have hz : m.positions.countP (sidePred s) = 0 := by
            rw [List.countP_eq_zero]
            intro a ha hca
            have hany : m.has_position s = true :=
              List.any_eq_true.mpr ⟨a, ha, hca⟩
            rw [hdup] at hany
            exact Bool.false_ne_true hany
          have h1 : List.countP (sidePred s) [p] ≤ 1 := by
            have := List.countP_le_length (sidePred s) (l := [p])
            simpa using this
          omega
        · have h0 : List.countP (sidePred s) [p] = 0 := by
            rw [List.countP_eq_zero]
            intro a ha hca
            rw [List.mem_singleton] at ha
            subst ha
            rw [hp] at hca
            unfold sidePred at hca
            rw [Bool.and_eq_true, decide_eq_true_iff] at hca
            exact hs (hca.1.symm)
          rw [h0]
          have := hside s
          omega
      · unfold PositionManager.count_nonclosed
        rw [hmmax, hpos, List.countP_append]
        have h1 : List.countP Position.nonClosed [p] ≤ 1 := by
          have := List.countP_le_length Position.nonClosed (l := [p])
          simpa using this
        unfold PositionManager.count_nonclosed at hcaplt
        omega
  | op_exits prices =>
    obtain ⟨hnd, hbound, hside, hcap⟩ := h
    simp only [PositionManager.apply]
    unfold PositionManager.check_all_exits
    dsimp only
    refine ⟨?_, ?_, ?_, ?_⟩
    · rw [List.map_map]
      rw [List.map_congr_left (fun p _ => by
        rw [Function.comp_apply,
          (exits_update_pointwise m.take_profit m.stop_loss prices p).2.2])]
      exact hnd
    · intro q hq
      obtain ⟨r, hr, rfl⟩ := List.mem_map.mp hq
      rw [(exits_update_pointwise m.take_profit m.stop_loss prices r).2.2]
      exact hbound r hr
    · intro s
      rw [countP_map_eq _ _ _ (fun p => by
        unfold sidePred
        rw [(exits_update_pointwise m.take_profit m.stop_loss prices p).1,
          (exits_update_pointwise m.take_profit m.stop_loss prices p).2.1])]
      exact hside s
    · unfold PositionManager.count_nonclosed
      dsimp only
      rw [countP_map_eq _ _ _ (fun p =>
        (exits_update_pointwise m.take_profit m.stop_loss prices p).2.1)]
      exact hcap
  | op_confirm id pnl now =>
    simp only [PositionManager.apply]
    cases hres : m.confirm_close id pnl now with
    | error e => exact h
    | ok v =>
      obtain ⟨hnd, hbound, hside, hcap⟩ := h
      obtain ⟨p, m'⟩ := v
      show GoodLedger m'
      obtain ⟨q, heq, hqstate, hqid, hp, hm⟩ :=
        confirm_close_ok_shape _ _ _ _ _ _ hres
      have hqmem := List.mem_of_find?_eq_some heq
      have hpid : p.id = id := by rw [hp]; exact hqid
      have hnp : Position.nonClosed p = false := by rw [hp]; rfl
      subst hm
      refine ⟨?_, ?_, ?_, ?_⟩
      · dsimp only
        rw [map_update_ids _ _ _ hpid]
        exact hnd
      · intro r hr
        dsimp only at hr
        obtain ⟨x, hx, rfl⟩ := List.mem_map.mp hr
        by_cases hxid : x.id = id
        · rw [if_pos hxid, hpid]
          exact hqid ▸ hbound q hqmem
        · rw [if_neg hxid]
          exact hbound x hx
      · intro s
        refine le_trans
          (close_update_countP_le _ _ q p hnd hqmem hqid _ ?_) (hside s)
        intro hc
        unfold sidePred at hc
        rw [hnp, Bool.and_false] at hc
        exact absurd hc (by simp)
      · unfold PositionManager.count_nonclosed
        refine le_trans
          (close_update_countP_le _ _ q p hnd hqmem hqid _ ?_) hcap
        intro hc
        rw [hnp] at hc
        exact absurd hc (by simp)
  | op_revert id =>
    simp only [PositionManager.apply]
    cases hres : m.revert_to_open id with
    | error e => exact h
    | ok v =>
      obtain ⟨hnd, hbound, hside, hcap⟩ := h
      obtain ⟨p, m'⟩ := v
      show GoodLedger m'
      obtain ⟨q, heq, hqstate, hqid, hp, hm⟩ :=
        revert_to_open_ok_shape _ _ _ _ hres
      have hqmem := List.mem_of_find?_eq_some heq
      have hpid : p.id = id := by rw [hp]; exact hqid
      have hps : p.side = q.side := by rw [hp]
      have hnp : Position.nonClosed p = true := by rw [hp]; rfl
      have hnq : Position.nonClosed q = true := by
        unfold Position.nonClosed
        rw [hqstate]
        rfl
      subst hm
      refine ⟨?_, ?_, ?_, ?_⟩
      · dsimp only
        rw [map_update_ids _ _ _ hpid]
        exact hnd
      · intro r hr
        dsimp only at hr
        obtain ⟨x, hx, rfl⟩ := List.mem_map.mp hr
        by_cases hxid : x.id = id
        · rw [if_pos hxid, hpid]
          exact hqid ▸ hbound q hqmem
        · rw [if_neg hxid]
          exact hbound x hx
      · intro s
        refine le_trans
          (close_update_countP_le _ _ q p hnd hqmem hqid _ ?_) (hside s)
        intro hc
        unfold sidePred at hc ⊢
        rw [hps, hnp] at hc
        rw [hnq]
        exact hc
      · unfold PositionManager.count_nonclosed
        refine le_trans
          (close_update_countP_le _ _ q p hnd hqmem hqid _ ?_) hcap
        intro hc
        exact hnq
  | op_set_offsets tp sl => exact h

/-- Helper: a run of ledger operations preserves the invariant. -/
theorem run_preserves_GoodLedger (m : PositionManager) (ops : List LedgerOp)
    (h : GoodLedger m) : GoodLedger (m.run ops) := by
  induction ops generalizing m with
  | nil => exact h
  | cons op ops ih => exact ih _ (apply_preserves_GoodLedger m op h)

/-- Helper: no ledger operation changes the configured capacity. -/
theorem apply_preserves_max (m : PositionManager) (op : LedgerOp) :
    (m.apply op).max_positions = m.max_positions := by
  cases op with
  | op_open side tok e sz oid now =>
    simp only [PositionManager.apply]
    cases hres : m.open_position side tok e sz oid now with
    | error e => rfl
    | ok v =>
      obtain ⟨p, m'⟩ := v
      exact (open_position_ok_shape _ _ _ _ _ _ _ _ _ hres).2.2.1
  | op_exits prices => rfl
  | op_confirm id pnl now =>
    simp only [PositionManager.apply]
    cases hres : m.confirm_close id pnl now with
    | error e => rfl
    | ok v =>
      obtain ⟨p, m'⟩ := v
      obtain ⟨q, -, -, -, -, hm⟩ := confirm_close_ok_shape _ _ _ _ _ _ hres
      rw [hm]
  | op_revert id =>
    simp only [PositionManager.apply]
    cases hres : m.revert_to_open id with
    | error e => rfl
    | ok v =>
      obtain ⟨p, m'⟩ := v
      obtain ⟨q, -, -, -, -, hm⟩ := revert_to_open_ok_shape _ _ _ _ hres
      rw [hm]
  | op_set_offsets tp sl => rfl

/-- Helper: a run of ledger operations keeps the configured capacity. -/
theorem run_preserves_max (m : PositionManager) (ops : List LedgerOp) :
    (m.run ops).max_positions = m.max_positions := by
  induction ops generalizing m with
  | nil => rfl
  | cons op ops ih =>
    show ((m.apply op).run ops).max_positions = m.max_positions
    rw [ih, apply_preserves_max]

/-- C7: `open` fails with `DuplicateSide` whenever an OPEN-or-CLOSING
position exists for the requested side, and — with no such duplicate — with
`CapacityExceeded` whenever the number of non-CLOSED positions would exceed
`max_positions`; consequently, after any sequence of ledger operations from
a fresh ledger, at most one OPEN-or-CLOSING position exists per side and the
non-CLOSED total never exceeds `max_positions`. -/
theorem position_ledger_safety :
    (∀ (m : PositionManager) (side tok : String) (e sz : ℚ) (oid : String)
        (now : ℚ),
      (∃ p ∈ m.positions, p.side = side ∧
        (p.state = PositionState.OPEN ∨ p.state = PositionState.CLOSING)) →
      m.open_position side tok e sz oid now =
        Except.error OpenError.DuplicateSide) ∧
    (∀ (m : PositionManager) (side tok : String) (e sz : ℚ) (oid : String)
        (now : ℚ),
      (¬ ∃ p ∈ m.positions, p.side = side ∧
        (p.state = PositionState.OPEN ∨ p.state = PositionState.CLOSING)) →
      m.max_positions ≤ m.count_nonclosed →
      m.open_position side tok e sz oid now =
        Except.error OpenError.CapacityExceeded) ∧
    (∀ (tp sl : ℚ) (maxp : ℕ) (ops : List LedgerOp) (s : String),
      ((PositionManager.init tp sl maxp).run ops).positions.countP
          (fun p => decide (p.side = s ∧ (p.state = PositionState.OPEN ∨
            p.state = PositionState.CLOSING))) ≤ 1 ∧
      ((PositionManager.init tp sl maxp).run ops).positions.countP
          (fun p => decide (p.state ≠ PositionState.CLOSED)) ≤ maxp) := by
  have hdupl : ∀ (m : PositionManager) (side : String),
      (∃ p ∈ m.positions, p.side = side ∧
        (p.state = PositionState.OPEN ∨ p.state = PositionState.CLOSING)) →
      m.has_position side = true := by
    rintro m side ⟨p, hp, hs, hoc⟩
    exact (has_position_iff m side).mpr
      ⟨p, hp, hs, (state_not_closed_iff _).mpr hoc⟩
  refine ⟨?_, ?_, ?_⟩
  · intro m side tok e sz oid now hex
    unfold PositionManager.open_position
    rw [if_pos (hdupl m side hex)]
  · intro m side tok e sz oid now hnex hcap
    unfold PositionManager.open_position
    rw [if_neg ?hnot, if_pos hcap]
    case hnot =>
      intro hc
      obtain ⟨p, hp, hs, hnc⟩ := (has_position_iff m side).mp hc
      exact hnex ⟨p, hp, hs, (state_not_closed_iff _).mp hnc⟩
  · intro tp sl maxp ops s
    obtain ⟨-, -, hside, hcap⟩ :=
      run_preserves_GoodLedger _ ops (goodledger_init tp sl maxp)
    constructor
    · rw [show (fun p : Position => decide (p.side = s ∧
          (p.state = PositionState.OPEN ∨ p.state = PositionState.CLOSING))) =
          sidePred s from ?_]
      · exact hside s
      · funext x
        unfold sidePred Position.nonClosed
        rcases hx : x.state <;> rcases hxx : decide (x.side = s) <;>
          simp_all [state_not_closed_iff]
    · have hmax : ((PositionManager.init tp sl maxp).run ops).max_positions =
          maxp := run_preserves_max _ ops
      exact le_of_le_of_eq hcap hmax

/-- A ledger at configured capacity 1, holding one non-closed position. -/
def fullMgr : PositionManager := ⟨0.18, 0.01, 1, [pOpen], 1⟩

/-- A concrete ledger-operation sequence: one lower-side open. -/
def demoOps : List LedgerOp :=
  [LedgerOp.op_open "lower" "tokL" 0.02 500 "o1" 5]

/-- Witness for C7: a duplicate lower-side open is rejected with
`DuplicateSide` on `exitMgr`, an upper-side open on the at-capacity
`fullMgr` is rejected with `CapacityExceeded`, and the invariant holds after
running `demoOps` from a fresh ledger. -/
theorem position_ledger_safety_witness :
    exitMgr.open_position "lower" "tokL" 0.03 300 "o9" 7 =
      Except.error OpenError.DuplicateSide ∧
    fullMgr.open_position "upper" "tokU" 0.03 300 "o9" 7 =
      Except.error OpenError.CapacityExceeded ∧
    (((PositionManager.init 0.15 0.5 2).run demoOps).positions.countP
        (fun p => decide (p.side = "lower" ∧ (p.state = PositionState.OPEN ∨
          p.state = PositionState.CLOSING))) ≤ 1 ∧
      ((PositionManager.init 0.15 0.5 2).run demoOps).positions.countP
        (fun p => decide (p.state ≠ PositionState.CLOSED)) ≤ 2) :=
  ⟨position_ledger_safety.1 exitMgr "lower" "tokL" 0.03 300 "o9" 7
      ⟨pOpen, by simp [exitMgr, pOpen], rfl, Or.inl rfl⟩,
   position_ledger_safety.2.1 fullMgr "upper" "tokU" 0.03 300 "o9" 7
      (by simp [fullMgr, pOpen])
      (by simp [fullMgr, PositionManager.count_nonclosed, Position.nonClosed,
        pOpen, List.countP_cons, List.countP_nil]),
   position_ledger_safety.2.2 0.15 0.5 2 demoOps "lower"⟩
